import Mathlib

/-!
Verification of the TendercareRotaMangement roster engine.

The TypeScript source is shallowly embedded:
* calendar dates are modelled as days since 1970-01-01 (an `Int`);
  1970-01-01 was a Thursday, and `getDay` follows the JS convention
  0 = Sunday … 6 = Saturday;
* `client/src/lib/roster-utils.ts` (eligibility resolver, default
  assignment resolver, shift hour calculator, roster generator, hours
  aggregator) is translated function by function;
* `MemStorage.updateShift` and `DatabaseStorage.respondToSwapRequest`
  are translated as explicit state-passing functions, with a thrown
  exception modelled as the `Except.error` side of the result;
* the diff computation of `roster-comparison.tsx` is translated with JS
  `Map` modelled as a function `String → Option _` (later inserts win)
  and JS `Set` as first-occurrence deduplication.
-/

namespace Tendercare

/-- The closed staff enumeration from `shared/schema.ts`. -/
inductive StaffMember
  | Ashley
  | Peninah
  | Joflix
  | Locum
deriving DecidableEq

/-- `STAFF_MEMBERS` from `shared/schema.ts`, in canonical order. -/
def STAFF_MEMBERS : List StaffMember :=
  [.Ashley, .Peninah, .Joflix, .Locum]

/-- The string name of a staff member (the enum value in the source). -/
def staffName : StaffMember → String
  | .Ashley => "Ashley"
  | .Peninah => "Peninah"
  | .Joflix => "Joflix"
  | .Locum => "Locum"

/-- Shift categories; `T24h` models the `"24h"` full-day category. -/
inductive ShiftType
  | Day
  | Night
  | T24h
deriving DecidableEq

/-- The string form of a shift type as it appears in the source. -/
def shiftTypeStr : ShiftType → String
  | .Day => "Day"
  | .Night => "Night"
  | .T24h => "24h"

/-- JS `getDay`: day of week, 0 = Sunday … 6 = Saturday.
Day 0 (1970-01-01) was a Thursday, hence the offset 4. -/
def getDay (z : Int) : Nat := ((z + 4) % 7).toNat

/-- date-fns `startOfWeek(date, \x7b weekStartsOn: 1 \x7d)`: the Monday of
the week containing `z` (Sunday belongs to the week of the preceding
Monday). -/
def startOfWeekMon (z : Int) : Int := z - (((getDay z : Int) + 6) % 7)

/-- Days since 1970-01-01 of a proleptic-Gregorian civil date
(Howard Hinnant's `days_from_civil`; Lean's `Int` division is Euclidean,
which agrees with floor division for the positive divisors used here). -/
def civilToDays (y m d : Int) : Int :=
  let y' := y - (if m ≤ 2 then 1 else 0)
  let era := y' / 400
  let yoe := y' - era * 400
  let doy := (153 * (m + (if m > 2 then -3 else 9)) + 2) / 5 + d - 1
  let doe := yoe * 365 + yoe / 4 - yoe / 100 + doy
  era * 146097 + doe - 719468

/-- Civil (year, month, day) of a days-since-1970-01-01 count
(Howard Hinnant's `civil_from_days`). -/
def daysToCivil (z0 : Int) : Int × Int × Int :=
  let z := z0 + 719468
  let era := z / 146097
  let doe := z - era * 146097
  let yoe := (doe - doe / 1460 + doe / 36524 - doe / 146096) / 365
  let y := yoe + era * 400
  let doy := doe - (365 * yoe + yoe / 4 - yoe / 100)
  let mp := (5 * doy + 2) / 153
  let d := doy - (153 * mp + 2) / 5 + 1
  let m := mp + (if mp < 10 then 3 else -9)
  (y + (if m ≤ 2 then 1 else 0), m, d)

/-- Zero-pad a (nonnegative) number to two digits. -/
def pad2 (n : Int) : String :=
  if n < 10 then "0" ++ toString n else toString n

/-- date-fns `format(date, "yyyy-MM-dd")`. -/
def formatDate (z : Int) : String :=
  match daysToCivil z with
  | (y, m, d) => toString y ++ "-" ++ pad2 m ++ "-" ++ pad2 d

/-- date-fns `format(date, "EEE")`: three-letter weekday name, indexed by
`getDay`. -/
def weekdayName (dayOfWeek : Nat) : String :=
  if dayOfWeek == 0 then "Sun"
  else if dayOfWeek == 1 then "Mon"
  else if dayOfWeek == 2 then "Tue"
  else if dayOfWeek == 3 then "Wed"
  else if dayOfWeek == 4 then "Thu"
  else if dayOfWeek == 5 then "Fri"
  else "Sat"

/-- `RosterShift` from `shared/schema.ts`. -/
structure RosterShift where
  id : String
  date : String
  weekday : String
  shiftType : ShiftType
  shiftLabel : String
  hours : Nat
  assigned : Option StaffMember
  allowedStaff : List StaffMember
deriving DecidableEq

/-- `getAllowedStaff` from `roster-utils.ts`. -/
def getAllowedStaff (date : Int) (shiftType : ShiftType) : List StaffMember :=
  let dayOfWeek := getDay date
  if dayOfWeek == 6 && shiftType == ShiftType.Day then
    [.Joflix]
  else if dayOfWeek == 6 && shiftType == ShiftType.Night then
    [.Ashley, .Peninah, .Locum]
  else if dayOfWeek == 0 then
    [.Ashley, .Peninah, .Locum]
  else
    [.Ashley, .Peninah, .Joflix, .Locum]

/-- `getDefaultAssignment` from `roster-utils.ts`. -/
def getDefaultAssignment (date : Int) (shiftType : ShiftType) (weekIndex : Nat) :
    Option StaffMember :=
  let dayOfWeek := getDay date
  if dayOfWeek == 6 && shiftType == ShiftType.Day then
    some .Joflix
  else if dayOfWeek == 6 && shiftType == ShiftType.Night then
    if weekIndex ≥ 3 then some .Locum
    else if weekIndex % 2 == 0 then some .Ashley else some .Peninah
  else if dayOfWeek == 0 && shiftType == ShiftType.Day then
    if weekIndex % 2 == 0 then some .Ashley else some .Peninah
  else if dayOfWeek == 0 && shiftType == ShiftType.Night then
    if weekIndex % 2 == 0 then some .Peninah else some .Ashley
  else if dayOfWeek == 1 then some .Ashley
  else if dayOfWeek == 2 then some .Peninah
  else if dayOfWeek == 3 then some .Joflix
  else if dayOfWeek == 4 then some .Joflix
  else if dayOfWeek == 5 then
    if weekIndex ≥ 3 then some .Locum else some .Peninah
  else none

/-- `getShiftHours` from `roster-utils.ts`. -/
def getShiftHours (dayOfWeek : Nat) (shiftType : ShiftType) : Nat :=
  if 1 ≤ dayOfWeek ∧ dayOfWeek ≤ 5 then 24
  else if shiftType == ShiftType.Day then 12
  else if shiftType == ShiftType.Night then 12
  else 24

/-- The body of the `for` loop of `generateRosterShifts` for day offset
`i` from the Monday-aligned start: the one or two shift records emitted
for that calendar day. -/
def shiftsForDay (adjustedStart : Int) (i : Nat) : List RosterShift :=
  let date := adjustedStart + i
  let dayOfWeek := getDay date
  let weekIndex := i / 7
  let dateStr := formatDate date
  let weekday := weekdayName dayOfWeek
  if dayOfWeek == 6 || dayOfWeek == 0 then
    let dayHours := getShiftHours dayOfWeek ShiftType.Day
    let dayAllowed := getAllowedStaff date ShiftType.Day
    let dayAssigned := getDefaultAssignment date ShiftType.Day weekIndex
    let nightHours := getShiftHours dayOfWeek ShiftType.Night
    let nightAllowed := getAllowedStaff date ShiftType.Night
    let nightAssigned := getDefaultAssignment date ShiftType.Night weekIndex
    [{ id := dateStr ++ "-day", date := dateStr, weekday := weekday,
       shiftType := ShiftType.Day,
       shiftLabel := "Day " ++ toString dayHours ++ "h", hours := dayHours,
       assigned := dayAssigned, allowedStaff := dayAllowed },
     { id := dateStr ++ "-night", date := dateStr, weekday := weekday,
       shiftType := ShiftType.Night,
       shiftLabel := "Night " ++ toString nightHours ++ "h", hours := nightHours,
       assigned := nightAssigned, allowedStaff := nightAllowed }]
  else
    let hours := getShiftHours dayOfWeek ShiftType.T24h
    let allowed := getAllowedStaff date ShiftType.T24h
    let assigned := getDefaultAssignment date ShiftType.T24h weekIndex
    [{ id := dateStr ++ "-24h", date := dateStr, weekday := weekday,
       shiftType := ShiftType.T24h, shiftLabel := "24h", hours := hours,
       assigned := assigned, allowedStaff := allowed }]

/-- `generateRosterShifts` from `roster-utils.ts`: iterate `weeks * 7`
consecutive days from the Monday-aligned start. -/
def generateRosterShifts (startDate : Int) (weeks : Nat) : List RosterShift :=
  let adjustedStart := startOfWeekMon startDate
  (List.range (weeks * 7)).flatMap (shiftsForDay adjustedStart)

/-- `StaffHoursSummary` from `shared/schema.ts`. -/
structure StaffHoursSummary where
  name : StaffMember
  totalHours : Nat
  shiftCount : Nat
deriving DecidableEq

/-- `calculateStaffHours` from `roster-utils.ts`: the JS `Map` keyed by
staff member is modelled as a function `StaffMember → Nat × Nat`
(hours, count), initialised to zero for every member. -/
def calculateStaffHours (shifts : List RosterShift) : List StaffHoursSummary :=
  let init : StaffMember → Nat × Nat := fun _ => (0, 0)
  let hoursMap := shifts.foldl
    (fun m shift =>
      match shift.assigned with
      | some staff =>
          fun s => if s == staff then ((m staff).1 + shift.hours, (m staff).2 + 1)
                   else m s
      | none => m)
    init
  STAFF_MEMBERS.map (fun name =>
    { name := name, totalHours := (hoursMap name).1, shiftCount := (hoursMap name).2 })

/-- `ShiftDiff` from `roster-comparison.tsx`. -/
structure ShiftDiff where
  shiftId : String
  date : String
  weekday : String
  shiftType : ShiftType
  leftAssigned : Option StaffMember
  rightAssigned : Option StaffMember
  isDifferent : Bool
deriving DecidableEq

/-- The alignment key of the diff: the template string
`date ++ "-" ++ shiftType`. -/
def diffKey (s : RosterShift) : String :=
  s.date ++ "-" ++ shiftTypeStr s.shiftType

/-- The JS `Map` of shifts keyed by `diffKey`, built by successive
`Map.set` calls (a later shift with the same key overwrites an earlier
one), modelled as a lookup function. -/
def buildShiftMap (shifts : List RosterShift) : String → Option RosterShift :=
  shifts.foldl
    (fun m shift => fun k => if k == diffKey shift then some shift else m k)
    (fun _ => none)

/-- JS `Set.add`: keep the first occurrence of each key, in insertion
order. -/
def jsSetInsert (acc : List String) (k : String) : List String :=
  if k ∈ acc then acc else acc ++ [k]

/-- The `allKeys` set of the diff: keys of the left map followed by keys
of the right map, deduplicated keeping first occurrences. -/
def allDiffKeys (left right : List RosterShift) : List String :=
  ((left.map diffKey) ++ (right.map diffKey)).foldl jsSetInsert []

/-- The comparator of the final `sort`: by `date`, then by the shift
type's string form (JS `localeCompare` modelled as lexicographic string
order, which agrees with it on ASCII `yyyy-MM-dd` dates and type names). -/
def diffLE (a b : ShiftDiff) : Bool :=
  decide (a.date < b.date) ||
    (a.date == b.date && decide (shiftTypeStr a.shiftType ≤ shiftTypeStr b.shiftType))

/-- The `diffs` computation of `RosterComparison` in
`roster-comparison.tsx`, applied to the two rosters' shift lists. -/
def computeDiffs (left right : List RosterShift) : List ShiftDiff :=
  let leftMap := buildShiftMap left
  let rightMap := buildShiftMap right
  let results := (allDiffKeys left right).filterMap (fun key =>
    let leftShift := leftMap key
    let rightShift := rightMap key
    let leftAssigned := leftShift.bind (fun s => s.assigned)
    let rightAssigned := rightShift.bind (fun s => s.assigned)
    let isDifferent := leftAssigned != rightAssigned
    match leftShift <|> rightShift with
    | some shift =>
        some { shiftId := shift.id, date := shift.date, weekday := shift.weekday,
               shiftType := shift.shiftType, leftAssigned := leftAssigned,
               rightAssigned := rightAssigned, isDifferent := isDifferent }
    | none => none)
  results.mergeSort diffLE

/-- The client-side `Roster` from `shared/schema.ts` (the shape stored by
`MemStorage`). -/
structure Roster where
  id : String
  startDate : String
  weeks : Nat
  shifts : List RosterShift
deriving DecidableEq

/-- `this.roster.shifts[shiftIndex] = updatedShift` where `shiftIndex`
is `findIndex(s => s.id === shiftId)`: replace the first shift whose id
matches. -/
def replaceFirstById : List RosterShift → String → RosterShift → List RosterShift
  | [], _, _ => []
  | s :: rest, shiftId, upd =>
    if s.id == shiftId then upd :: rest
    else s :: replaceFirstById rest shiftId upd

/-- `MemStorage.updateShift` (the `DatabaseStorage` version performs the
identical eligibility check before writing). The mutable `this.roster`
is passed explicitly; the thrown `Error` is the `Except.error` side, in
which case the stored roster is unchanged (the TS mutation on line 36 is
never reached). Returns the result paired with the new stored roster. -/
def updateShift (roster : Option Roster) (shiftId : String)
    (assigned : Option StaffMember) :
    Except String (Option RosterShift) × Option Roster :=
  match roster with
  | none => (Except.ok none, none)
  | some r =>
    match r.shifts.find? (fun s => s.id == shiftId) with
    | none => (Except.ok none, some r)
    | some shift =>
      if assigned.any (fun a => !(shift.allowedStaff.contains a)) then
        (Except.error ("Staff member " ++ ((assigned.map staffName).getD "") ++
           " is not allowed for this shift"), some r)
      else
        let updatedShift := { shift with assigned := assigned }
        (Except.ok (some updatedShift),
         some { r with shifts := replaceFirstById r.shifts shiftId updatedShift })

/-- Swap-request status from `shared/schema.ts`. -/
inductive SwapStatus
  | pending
  | approved
  | rejected
deriving DecidableEq

/-- A row of the `swap_requests` table (the fields
`respondToSwapRequest` reads and writes). -/
structure SwapRequest where
  id : String
  shiftId : String
  fromStaff : StaffMember
  toStaff : StaffMember
  status : SwapStatus
deriving DecidableEq

/-- The database rows `DatabaseStorage.respondToSwapRequest` touches:
the `shifts` table and the `swap_requests` table. -/
structure StorageState where
  shifts : List RosterShift
  swapRequests : List SwapRequest
deriving DecidableEq

/-- SQL `update swap_requests set status where id = requestId`. -/
def dbUpdateSwapStatus (reqs : List SwapRequest) (requestId : String)
    (status : SwapStatus) : List SwapRequest :=
  reqs.map (fun q => if q.id == requestId then { q with status := status } else q)

/-- SQL `update shifts set assigned where id = shiftId`. -/
def dbUpdateShiftAssigned (shifts : List RosterShift) (shiftId : String)
    (a : Option StaffMember) : List RosterShift :=
  shifts.map (fun s => if s.id == shiftId then { s with assigned := a } else s)

/-- `DatabaseStorage.respondToSwapRequest`: look up the request; if found,
set its status, and when the status is `approved` set the referenced
shift's `assigned` to the request's `toStaff` directly (the source
performs no eligibility check on this path and does not call
`updateShift`). Returns the updated request (the source returns it with
joined shift details) paired with the new state. -/
def respondToSwapRequest (st : StorageState) (requestId : String)
    (status : SwapStatus) : Option SwapRequest × StorageState :=
  match st.swapRequests.find? (fun q => q.id == requestId) with
  | none => (none, st)
  | some request =>
    let reqs := dbUpdateSwapStatus st.swapRequests requestId status
    let shifts :=
      if status == SwapStatus.approved then
        dbUpdateShiftAssigned st.shifts request.shiftId (some request.toStaff)
      else st.shifts
    (some { request with status := status },
     { shifts := shifts, swapRequests := reqs })

/-! ### Date-arithmetic helper lemmas -/

theorem getDay_lt_7 (z : Int) : getDay z < 7 := by
  unfold getDay; omega

theorem getDay_startOfWeekMon (z : Int) : getDay (startOfWeekMon z) = 1 := by
  simp only [startOfWeekMon, getDay]; omega

theorem startOfWeekMon_idem (z : Int) :
    startOfWeekMon (startOfWeekMon z) = startOfWeekMon z := by
  simp only [startOfWeekMon, getDay]; omega

theorem getDay_monday_add (a : Int) (h : getDay a = 1) (i : Nat) :
    getDay (a + i) = (1 + i) % 7 := by
  unfold getDay at *; omega

/-! ### C3: the concrete one-week scenario starting Monday 2024-06-03 -/

/-- C3: `generate("2024-06-03", 1)` (a Monday) yields exactly these 9
shifts in order: Mon 24h→Ashley, Tue 24h→Peninah, Wed 24h→Joflix,
Thu 24h→Joflix, Fri 24h→Peninah, Sat Day 12h→Joflix,
Sat Night 12h→Ashley, Sun Day 12h→Ashley, Sun Night 12h→Peninah. -/
theorem generate_week_2024_06_03 :
    generateRosterShifts (civilToDays 2024 6 3) 1 =
      [{ id := "2024-06-03-24h", date := "2024-06-03", weekday := "Mon",
         shiftType := .T24h, shiftLabel := "24h", hours := 24,
         assigned := some .Ashley,
         allowedStaff := [.Ashley, .Peninah, .Joflix, .Locum] },
       { id := "2024-06-04-24h", date := "2024-06-04", weekday := "Tue",
         shiftType := .T24h, shiftLabel := "24h", hours := 24,
         assigned := some .Peninah,
         allowedStaff := [.Ashley, .Peninah, .Joflix, .Locum] },
       { id := "2024-06-05-24h", date := "2024-06-05", weekday := "Wed",
         shiftType := .T24h, shiftLabel := "24h", hours := 24,
         assigned := some .Joflix,
         allowedStaff := [.Ashley, .Peninah, .Joflix, .Locum] },
       { id := "2024-06-06-24h", date := "2024-06-06", weekday := "Thu",
         shiftType := .T24h, shiftLabel := "24h", hours := 24,
         assigned := some .Joflix,
         allowedStaff := [.Ashley, .Peninah, .Joflix, .Locum] },
       { id := "2024-06-07-24h", date := "2024-06-07", weekday := "Fri",
         shiftType := .T24h, shiftLabel := "24h", hours := 24,
         assigned := some .Peninah,
         allowedStaff := [.Ashley, .Peninah, .Joflix, .Locum] },
       { id := "2024-06-08-day", date := "2024-06-08", weekday := "Sat",
         shiftType := .Day, shiftLabel := "Day 12h", hours := 12,
         assigned := some .Joflix, allowedStaff := [.Joflix] },
       { id := "2024-06-08-night", date := "2024-06-08", weekday := "Sat",
         shiftType := .Night, shiftLabel := "Night 12h", hours := 12,
         assigned := some .Ashley,
         allowedStaff := [.Ashley, .Peninah, .Locum] },
       { id := "2024-06-09-day", date := "2024-06-09", weekday := "Sun",
         shiftType := .Day, shiftLabel := "Day 12h", hours := 12,
         assigned := some .Ashley,
         allowedStaff := [.Ashley, .Peninah, .Locum] },
       { id := "2024-06-09-night", date := "2024-06-09", weekday := "Sun",
         shiftType := .Night, shiftLabel := "Night 12h", hours := 12,
         assigned := some .Peninah,
         allowedStaff := [.Ashley, .Peninah, .Locum] }] := by
  decide

/-! ### C1: swap approval versus the eligibility invariant -/

/-- A stored Sunday Day shift: its eligibility set excludes Joflix. -/
def sundayDayShift : RosterShift :=
  { id := "2024-06-09-day", date := "2024-06-09", weekday := "Sun",
    shiftType := .Day, shiftLabel := "Day 12h", hours := 12,
    assigned := some .Ashley, allowedStaff := [.Ashley, .Peninah, .Locum] }

/-- A pending swap request proposing to hand that shift to Joflix. -/
def swapToJoflix : SwapRequest :=
  { id := "r1", shiftId := "2024-06-09-day", fromStaff := .Ashley,
    toStaff := .Joflix, status := .pending }

/-- A storage state holding the Sunday shift and the pending request. -/
def swapState : StorageState :=
  { shifts := [sundayDayShift], swapRequests := [swapToJoflix] }

/-- C1: evaluating the code at the failing input. Approving a swap
request whose `toStaff` is outside the shift's `allowedStaff` list sets
the shift's assignee to that ineligible member anyway:
`respondToSwapRequest` writes `toStaff` directly, without the
eligibility validation that `updateShift` performs, so the invariant
"a non-null assignee is a member of `allowedStaff`" is broken after
approval. -/
theorem swap_approval_skips_eligibility_check :
    ((respondToSwapRequest swapState "r1" .approved).2.shifts.map
        (fun s => s.assigned)) = [some .Joflix] ∧
      StaffMember.Joflix ∉ sundayDayShift.allowedStaff := by
  decide

/-! ### C4 and C10: updateShift validation behaviour -/

/-- The record `\x7b shift with assigned := a \x7d` (the `updatedShift` of the
source), named so it can appear in theorem statements. -/
def setAssigned (s : RosterShift) (a : Option StaffMember) : RosterShift :=
  { s with assigned := a }

/-- The roster `r` with its shift list replaced. -/
def setShifts (r : Roster) (l : List RosterShift) : Roster :=
  { r with shifts := l }

theorem find?_replaceFirstById (shiftId : String) (upd : RosterShift)
    (hid : (upd.id == shiftId) = true) :
    ∀ (l : List RosterShift) (shift : RosterShift),
      l.find? (fun s => s.id == shiftId) = some shift →
        (replaceFirstById l shiftId upd).find? (fun s => s.id == shiftId) =
          some upd := by
  intro l
  induction l with
  | nil => intro shift h; simp [List.find?] at h
  | cons s rest ih =>
    intro shift h
    by_cases hs : (s.id == shiftId) = true
    · simp [replaceFirstById, hs, List.find?, hid]
    · rw [@List.find?_cons_of_neg _ (fun s => s.id == shiftId) s rest hs] at h
      simp only [replaceFirstById, if_neg hs]
      rw [@List.find?_cons_of_neg _ (fun s => s.id == shiftId) s
        (replaceFirstById rest shiftId upd) hs]
      exact ih shift h

/-- C4: for a stored shift found by id and a non-null proposed assignee,
`updateShift` rejects with the distinguishable "is not allowed" error
exactly when the proposed member is outside the shift's `allowedStaff`
list, leaving the stored roster (hence the shift and all its fields)
unchanged; when the member is allowed, the update succeeds, the shift's
assignee becomes the proposed member, and the stored copy of the shift
is the same record with only `assigned` replaced. -/
theorem updateShift_validates_eligibility
    (r : Roster) (shiftId : String) (a : StaffMember) (shift : RosterShift)
    (hf : r.shifts.find? (fun s => s.id == shiftId) = some shift) :
    (shift.allowedStaff.contains a = false →
        updateShift (some r) shiftId (some a) =
          (Except.error ("Staff member " ++ staffName a ++
             " is not allowed for this shift"), some r)) ∧
    (shift.allowedStaff.contains a = true →
        updateShift (some r) shiftId (some a) =
          (Except.ok (some (setAssigned shift (some a))),
           some (setShifts r
             (replaceFirstById r.shifts shiftId (setAssigned shift (some a))))) ∧
        (replaceFirstById r.shifts shiftId
            (setAssigned shift (some a))).find? (fun s => s.id == shiftId) =
          some (setAssigned shift (some a))) := by
  have hid : (shift.id == shiftId) = true := by
    have h2 := @List.find?_some _ (fun s => s.id == shiftId) shift r.shifts hf
    simpa using h2
  constructor
  · intro hno
    simp only [updateShift, hf]
    simp [Option.any, hno]
    simpa using hno
  · intro hyes
    refine ⟨?_, ?_⟩
    · simp only [updateShift, hf]
      simp [Option.any, hyes, setAssigned, setShifts]
      simpa using hyes
    · exact find?_replaceFirstById shiftId _ (by simpa [setAssigned] using hid)
        r.shifts shift hf

/-- A stored shift whose eligibility set excludes Joflix, for the C4
witness. -/
def weekendShiftC4 : RosterShift :=
  { id := "s4", date := "2024-06-09", weekday := "Sun",
    shiftType := .Day, shiftLabel := "Day 12h", hours := 12,
    assigned := some .Ashley, allowedStaff := [.Ashley, .Peninah, .Locum] }

/-- A one-shift stored roster for the C4 witness. -/
def rosterC4 : Roster :=
  { id := "ros4", startDate := "2024-06-03", weeks := 1,
    shifts := [weekendShiftC4] }

/-- C4 witness: on the concrete roster, proposing the ineligible Joflix
for the Sunday shift is rejected with the "is not allowed" error and the
stored roster is unchanged. -/
theorem updateShift_validates_eligibility_witness :
    (rosterC4.shifts.find? (fun s => s.id == "s4") = some weekendShiftC4) ∧
    weekendShiftC4.allowedStaff.contains StaffMember.Joflix = false ∧
    updateShift (some rosterC4) "s4" (some StaffMember.Joflix) =
      (Except.error ("Staff member " ++ staffName StaffMember.Joflix ++
         " is not allowed for this shift"), some rosterC4) :=
  ⟨by decide, by decide,
   (updateShift_validates_eligibility rosterC4 "s4" StaffMember.Joflix
      weekendShiftC4 (by decide)).1 (by decide)⟩

/-- C10: for any stored shift found by id, `updateShift` with a null
proposed assignee never raises the "is not allowed" error (the
eligibility check only runs for a non-null proposal): it succeeds and
stores the shift with `assigned := none`, even when the shift is locked
(its `allowedStaff` list has exactly one member). -/
theorem updateShift_unassign_always_succeeds
    (r : Roster) (shiftId : String) (shift : RosterShift)
    (hf : r.shifts.find? (fun s => s.id == shiftId) = some shift) :
    updateShift (some r) shiftId none =
      (Except.ok (some (setAssigned shift none)),
       some (setShifts r
         (replaceFirstById r.shifts shiftId (setAssigned shift none)))) := by
  simp only [updateShift, hf]
  simp [Option.any, setAssigned, setShifts]

/-- A locked stored shift (singleton `allowedStaff`), for the C10
witness. -/
def lockedShiftC10 : RosterShift :=
  { id := "s10", date := "2024-06-08", weekday := "Sat",
    shiftType := .Day, shiftLabel := "Day 12h", hours := 12,
    assigned := some .Joflix, allowedStaff := [.Joflix] }

/-- A one-shift stored roster holding the locked shift, for the C10
witness. -/
def rosterC10 : Roster :=
  { id := "ros10", startDate := "2024-06-03", weeks := 1,
    shifts := [lockedShiftC10] }

/-- C10 witness: unassigning the locked Saturday Day shift succeeds and
stores `assigned := none`. -/
theorem updateShift_unassign_always_succeeds_witness :
    (rosterC10.shifts.find? (fun s => s.id == "s10") = some lockedShiftC10) ∧
    updateShift (some rosterC10) "s10" none =
      (Except.ok (some (setAssigned lockedShiftC10 none)),
       some (setShifts rosterC10
         (replaceFirstById rosterC10.shifts "s10"
           (setAssigned lockedShiftC10 none)))) :=
  ⟨by decide,
   updateShift_unassign_always_succeeds rosterC10 "s10" lockedShiftC10 (by decide)⟩

/-! ### C7: diffing a roster against itself -/

/-- C7: the diff of a shift list against itself contains no entry whose
`isDifferent` flag is true — on every aligned key both sides resolve to
the same shift, so the two assignees are equal. -/
theorem selfDiff_no_changes (shifts : List RosterShift) :
    (computeDiffs shifts shifts).filter (fun d => d.isDifferent) = [] := by
  rw [List.filter_eq_nil_iff]
  intro d hd
  simp only [computeDiffs] at hd
  rw [List.mem_mergeSort, List.mem_filterMap] at hd
  obtain ⟨key, hkey, hfd⟩ := hd
  cases hm : buildShiftMap shifts key with
  | none => simp [hm] at hfd
  | some shift =>
    simp only [hm, Option.some_orElse, Option.some_bind] at hfd
    rw [Option.some.injEq] at hfd
    rw [← hfd]
    simp

/-! ### C6: the hours aggregation total -/

theorem hoursFold_sum (shifts : List RosterShift) :
    ∀ m : StaffMember → Nat × Nat,
      (STAFF_MEMBERS.map (fun s =>
          ((shifts.foldl
              (fun m shift =>
                match shift.assigned with
                | some staff =>
                    fun s => if s == staff then
                        ((m staff).1 + shift.hours, (m staff).2 + 1)
                      else m s
                | none => m) m) s).1)).sum =
        (STAFF_MEMBERS.map (fun s => (m s).1)).sum +
          ((shifts.filter (fun s => s.assigned.isSome)).map
            (fun s => s.hours)).sum := by
  induction shifts with
  | nil => intro m; simp
  | cons shift rest ih =>
    intro m
    rw [List.foldl_cons, List.filter_cons]
    cases ha : shift.assigned with
    | none =>
      simp only [ha]
      rw [ih]
      simp
    | some staff =>
      simp only [ha]
      rw [ih]
      have hupd :
          (STAFF_MEMBERS.map (fun s =>
              ((fun s => if s == staff then
                    ((m staff).1 + shift.hours, (m staff).2 + 1)
                  else m s) s).1)).sum =
            (STAFF_MEMBERS.map (fun s => (m s).1)).sum + shift.hours := by
        cases staff <;> simp [STAFF_MEMBERS] <;> omega
      rw [hupd]
      simp
      omega

/-- C6: the sum of `totalHours` across the four staff summaries returned
by `calculateStaffHours` equals the sum of `hours` over exactly the
input shifts whose `assigned` is non-null; unassigned shifts contribute
nothing. -/
theorem staffHours_total (shifts : List RosterShift) :
    ((calculateStaffHours shifts).map (fun s => s.totalHours)).sum =
      ((shifts.filter (fun s => s.assigned.isSome)).map
        (fun s => s.hours)).sum := by
  have h := hoursFold_sum shifts (fun _ => (0, 0))
  simp only [calculateStaffHours, List.map_map, Function.comp] at *
  simpa using h

/-! ### C2: shift counts of the generated roster -/

theorem measure_flatMap_range_weeks
    (c : List RosterShift → Nat)
    (happ : ∀ xs ys, c (xs ++ ys) = c xs + c ys)
    (f : Nat → List RosterShift) (k : Nat)
    (hweek : ∀ w, c (f (w*7+0)) + c (f (w*7+1)) + c (f (w*7+2)) + c (f (w*7+3)) +
        c (f (w*7+4)) + c (f (w*7+5)) + c (f (w*7+6)) = k) :
    ∀ weeks, c ((List.range (weeks*7)).flatMap f) = weeks * k := by
  have hnil : c [] = 0 := by
    have h := happ [] []
    simp at h
    omega
  intro weeks
  induction weeks with
  | zero => simpa using hnil
  | succ w ih =>
    have h7 : (w+1)*7 = w*7 + 7 := by ring
    rw [h7, List.range_add, List.flatMap_append, happ, ih]
    have hck : c (((List.range 7).map (fun x => w*7 + x)).flatMap f) = k := by
      have hr : List.range 7 = [0,1,2,3,4,5,6] := rfl
      rw [hr]
      simp only [List.map_cons, List.map_nil, List.flatMap_cons, List.flatMap_nil,
        List.append_nil, happ]
      have hw := hweek w
      omega
    rw [hck]
    ring

theorem shiftsForDay_length (adj : Int) (halign : getDay adj = 1) (i : Nat) :
    (shiftsForDay adj i).length =
      if (1+i) % 7 == 6 || (1+i) % 7 == 0 then 2 else 1 := by
  have hd := getDay_monday_add adj halign i
  simp only [shiftsForDay, hd]
  by_cases hc : ((1+i) % 7 == 6 || (1+i) % 7 == 0) = true <;> simp [hc]

theorem shiftsForDay_countDay (adj : Int) (halign : getDay adj = 1) (i : Nat) :
    (shiftsForDay adj i).countP (fun s => s.shiftType == ShiftType.Day) =
      if (1+i) % 7 == 6 || (1+i) % 7 == 0 then 1 else 0 := by
  have hd := getDay_monday_add adj halign i
  simp only [shiftsForDay, hd]
  by_cases hc : ((1+i) % 7 == 6 || (1+i) % 7 == 0) = true <;> simp [hc, List.countP_cons]

theorem shiftsForDay_countNight (adj : Int) (halign : getDay adj = 1) (i : Nat) :
    (shiftsForDay adj i).countP (fun s => s.shiftType == ShiftType.Night) =
      if (1+i) % 7 == 6 || (1+i) % 7 == 0 then 1 else 0 := by
  have hd := getDay_monday_add adj halign i
  simp only [shiftsForDay, hd]
  by_cases hc : ((1+i) % 7 == 6 || (1+i) % 7 == 0) = true <;> simp [hc, List.countP_cons]

theorem shiftsForDay_count24 (adj : Int) (halign : getDay adj = 1) (i : Nat) :
    (shiftsForDay adj i).countP (fun s => s.shiftType == ShiftType.T24h) =
      if (1+i) % 7 == 6 || (1+i) % 7 == 0 then 0 else 1 := by
  have hd := getDay_monday_add adj halign i
  simp only [shiftsForDay, hd]
  by_cases hc : ((1+i) % 7 == 6 || (1+i) % 7 == 0) = true <;> simp [hc, List.countP_cons]

/-- C2: for every start date and week count, the generated roster holds
exactly `weeks × 9` shifts: `weeks × 5` weekday Full-day (`24h`) shifts
plus `weeks × 2` weekend Day shifts and `weeks × 2` weekend Night shifts
(one Day and one Night for each Saturday and each Sunday). -/
theorem generate_shift_counts (startDate : Int) (weeks : Nat) :
    (generateRosterShifts startDate weeks).length = weeks * 9 ∧
    (generateRosterShifts startDate weeks).countP
        (fun s => s.shiftType == ShiftType.T24h) = weeks * 5 ∧
    (generateRosterShifts startDate weeks).countP
        (fun s => s.shiftType == ShiftType.Day) = weeks * 2 ∧
    (generateRosterShifts startDate weeks).countP
        (fun s => s.shiftType == ShiftType.Night) = weeks * 2 := by
  have halign := getDay_startOfWeekMon startDate
  have e : ∀ w j : Nat, (1 + (w*7+j)) % 7 = (1+j) % 7 := fun w j => by omega
  simp only [generateRosterShifts]
  refine ⟨?_, ?_, ?_, ?_⟩
  · refine measure_flatMap_range_weeks List.length
      (fun xs ys => List.length_append xs ys) _ 9 (fun w => ?_) weeks
    simp only [shiftsForDay_length _ halign, e]
    decide
  · refine measure_flatMap_range_weeks
      (fun l => l.countP (fun s => s.shiftType == ShiftType.T24h))
      (fun xs ys => List.countP_append _ xs ys) _ 5 (fun w => ?_) weeks
    simp only [shiftsForDay_count24 _ halign, e]
    decide
  · refine measure_flatMap_range_weeks
      (fun l => l.countP (fun s => s.shiftType == ShiftType.Day))
      (fun xs ys => List.countP_append _ xs ys) _ 2 (fun w => ?_) weeks
    simp only [shiftsForDay_countDay _ halign, e]
    decide
  · refine measure_flatMap_range_weeks
      (fun l => l.countP (fun s => s.shiftType == ShiftType.Night))
      (fun xs ys => List.countP_append _ xs ys) _ 2 (fun w => ?_) weeks
    simp only [shiftsForDay_countNight _ halign, e]
    decide

/-! ### C9 and C5: per-shift properties of the generated roster -/

theorem isSome_ite {c : Prop} [Decidable c] {a b : Option StaffMember}
    (ha : a.isSome = true) (hb : b.isSome = true) :
    (if c then a else b).isSome = true := by
  split <;> assumption

theorem mem_shiftsForDay_isSome (adj : Int) (halign : getDay adj = 1) (i : Nat)
    (s : RosterShift) (hs : s ∈ shiftsForDay adj i) :
    s.assigned.isSome = true := by
  have hd := getDay_monday_add adj halign i
  have h7 : (1+i) % 7 = 0 ∨ (1+i) % 7 = 1 ∨ (1+i) % 7 = 2 ∨ (1+i) % 7 = 3 ∨
      (1+i) % 7 = 4 ∨ (1+i) % 7 = 5 ∨ (1+i) % 7 = 6 := by omega
  rcases h7 with h|h|h|h|h|h|h <;> rw [h] at hd
  · simp only [shiftsForDay, hd] at hs
    simp at hs
    rcases hs with rfl|rfl
    · simp only [getDefaultAssignment, hd]
      simp
      exact isSome_ite rfl rfl
    · simp only [getDefaultAssignment, hd]
      simp
      exact isSome_ite rfl rfl
  · simp only [shiftsForDay, hd] at hs
    simp at hs
    subst hs
    simp [getDefaultAssignment, hd]
  · simp only [shiftsForDay, hd] at hs
    simp at hs
    subst hs
    simp [getDefaultAssignment, hd]
  · simp only [shiftsForDay, hd] at hs
    simp at hs
    subst hs
    simp [getDefaultAssignment, hd]
  · simp only [shiftsForDay, hd] at hs
    simp at hs
    subst hs
    simp [getDefaultAssignment, hd]
  · simp only [shiftsForDay, hd] at hs
    simp at hs
    subst hs
    simp only [getDefaultAssignment, hd]
    simp
    exact isSome_ite rfl rfl
  · simp only [shiftsForDay, hd] at hs
    simp at hs
    rcases hs with rfl|rfl
    · simp [getDefaultAssignment, hd]
    · simp only [getDefaultAssignment, hd]
      simp
      exact isSome_ite rfl (isSome_ite rfl rfl)

/-- C9: every shift emitted by `generateRosterShifts` carries a non-null
default assignee — the default-assignment resolver returns a member for
every (weekday, category) pair the generator actually queries, so a
fresh roster contains no unassigned shift. -/
theorem generated_shifts_all_assigned (startDate : Int) (weeks : Nat)
    (s : RosterShift) (hs : s ∈ generateRosterShifts startDate weeks) :
    s.assigned.isSome = true := by
  simp only [generateRosterShifts] at hs
  rw [List.mem_flatMap] at hs
  obtain ⟨i, hi, hmem⟩ := hs
  exact mem_shiftsForDay_isSome _ (getDay_startOfWeekMon startDate) i s hmem

/-- C9 witness: the first shift of the concrete 2024-06-03 roster is
assigned. -/
theorem generated_shifts_all_assigned_witness :
    ({ id := "2024-06-03-24h", date := "2024-06-03", weekday := "Mon",
       shiftType := .T24h, shiftLabel := "24h", hours := 24,
       assigned := some .Ashley,
       allowedStaff := [.Ashley, .Peninah, .Joflix, .Locum] } : RosterShift) ∈
      generateRosterShifts (civilToDays 2024 6 3) 1 ∧
    (({ id := "2024-06-03-24h", date := "2024-06-03", weekday := "Mon",
        shiftType := .T24h, shiftLabel := "24h", hours := 24,
        assigned := some .Ashley,
        allowedStaff := [.Ashley, .Peninah, .Joflix, .Locum] } :
          RosterShift)).assigned.isSome = true :=
  ⟨by decide, generated_shifts_all_assigned (civilToDays 2024 6 3) 1 _ (by decide)⟩

theorem mem_shiftsForDay_satday (adj : Int) (halign : getDay adj = 1) (i : Nat)
    (s : RosterShift) (hs : s ∈ shiftsForDay adj i)
    (hsat : s.weekday = "Sat") (hday : s.shiftType = ShiftType.Day) :
    s.allowedStaff = [StaffMember.Joflix] ∧
      s.assigned = some StaffMember.Joflix := by
  have hd := getDay_monday_add adj halign i
  have h7 : (1+i) % 7 = 0 ∨ (1+i) % 7 = 1 ∨ (1+i) % 7 = 2 ∨ (1+i) % 7 = 3 ∨
      (1+i) % 7 = 4 ∨ (1+i) % 7 = 5 ∨ (1+i) % 7 = 6 := by omega
  rcases h7 with h|h|h|h|h|h|h <;> rw [h] at hd
  · simp only [shiftsForDay, hd] at hs
    simp at hs
    rcases hs with rfl|rfl <;> simp [weekdayName] at hsat
  · simp only [shiftsForDay, hd] at hs
    simp at hs
    subst hs
    simp [weekdayName] at hsat
  · simp only [shiftsForDay, hd] at hs
    simp at hs
    subst hs
    simp [weekdayName] at hsat
  · simp only [shiftsForDay, hd] at hs
    simp at hs
    subst hs
    simp [weekdayName] at hsat
  · simp only [shiftsForDay, hd] at hs
    simp at hs
    subst hs
    simp [weekdayName] at hsat
  · simp only [shiftsForDay, hd] at hs
    simp at hs
    subst hs
    simp [weekdayName] at hsat
  · simp only [shiftsForDay, hd] at hs
    simp at hs
    rcases hs with rfl|rfl
    · constructor
      · simp [getAllowedStaff, hd]
      · simp [getDefaultAssignment, hd]
    · simp at hday

/-- C5: every generated Saturday Day shift has eligibility set exactly
`[Joflix]` and default assignee `Joflix`. -/
theorem saturday_day_locked_to_Joflix (startDate : Int) (weeks : Nat)
    (s : RosterShift) (hs : s ∈ generateRosterShifts startDate weeks)
    (hsat : s.weekday = "Sat") (hday : s.shiftType = ShiftType.Day) :
    s.allowedStaff = [StaffMember.Joflix] ∧
      s.assigned = some StaffMember.Joflix := by
  simp only [generateRosterShifts] at hs
  rw [List.mem_flatMap] at hs
  obtain ⟨i, hi, hmem⟩ := hs
  exact mem_shiftsForDay_satday _ (getDay_startOfWeekMon startDate) i s hmem
    hsat hday

/-- C5 witness: the Saturday Day shift of the concrete 2024-06-03 roster
is locked to Joflix. -/
theorem saturday_day_locked_to_Joflix_witness :
    ({ id := "2024-06-08-day", date := "2024-06-08", weekday := "Sat",
       shiftType := .Day, shiftLabel := "Day 12h", hours := 12,
       assigned := some .Joflix, allowedStaff := [.Joflix] } : RosterShift) ∈
      generateRosterShifts (civilToDays 2024 6 3) 1 ∧
    (({ id := "2024-06-08-day", date := "2024-06-08", weekday := "Sat",
        shiftType := .Day, shiftLabel := "Day 12h", hours := 12,
        assigned := some .Joflix, allowedStaff := [.Joflix] } :
          RosterShift)).allowedStaff = [StaffMember.Joflix] ∧
    (({ id := "2024-06-08-day", date := "2024-06-08", weekday := "Sat",
        shiftType := .Day, shiftLabel := "Day 12h", hours := 12,
        assigned := some .Joflix, allowedStaff := [.Joflix] } :
          RosterShift)).assigned = some StaffMember.Joflix :=
  ⟨by decide,
   (saturday_day_locked_to_Joflix (civilToDays 2024 6 3) 1 _ (by decide)
      (by decide) (by decide)).1,
   (saturday_day_locked_to_Joflix (civilToDays 2024 6 3) 1 _ (by decide)
      (by decide) (by decide)).2⟩

/-! ### C8: Monday snapping -/

/-- C8: the generator snaps its start date to the Monday of that date's
week — that Monday lies at most 6 days before the given date, its
weekday is Monday, generating from the original date gives exactly the
same roster as generating from the snapped Monday (the output depends
only on the week of the start date), and for a positive horizon the
first emitted shift falls on a Monday. -/
theorem generate_snaps_to_monday (startDate : Int) (weeks : Nat) :
    startDate - 6 ≤ startOfWeekMon startDate ∧
    startOfWeekMon startDate ≤ startDate ∧
    getDay (startOfWeekMon startDate) = 1 ∧
    generateRosterShifts startDate weeks =
      generateRosterShifts (startOfWeekMon startDate) weeks ∧
    (0 < weeks →
      (generateRosterShifts startDate weeks).head?.map (fun s => s.weekday) =
        some "Mon") := by
  refine ⟨?_, ?_, getDay_startOfWeekMon startDate, ?_, ?_⟩
  · simp only [startOfWeekMon, getDay]; omega
  · simp only [startOfWeekMon, getDay]; omega
  · simp only [generateRosterShifts, startOfWeekMon_idem]
  · intro hw
    have halign := getDay_startOfWeekMon startDate
    simp only [generateRosterShifts]
    have h1 : weeks * 7 = (weeks*7 - 1) + 1 := by omega
    rw [h1, List.range_succ_eq_map, List.flatMap_cons]
    have hd0 : getDay (startOfWeekMon startDate + ((0:Nat) : Int)) = 1 := by
      simpa using halign
    simp only [shiftsForDay, hd0]
    simp [weekdayName]

/-- C8 witness: starting from Wednesday 2024-06-05 the roster is the one
generated from Monday 2024-06-03, and its first shift is a Monday. -/
theorem generate_snaps_to_monday_witness :
    0 < 1 ∧
    (generateRosterShifts (civilToDays 2024 6 5) 1).head?.map
        (fun s => s.weekday) = some "Mon" :=
  ⟨by decide,
   (generate_snaps_to_monday (civilToDays 2024 6 5) 1).2.2.2.2 (by decide)⟩

end Tendercare
